import Mathlib

set_option autoImplicit false

/-!
Shallow embedding of the Wikipedia article-name scraper
(`get_article_names.py` together with the schema helper `funcs.py`).

The SQLite `articles` table (column `title TEXT NOT NULL UNIQUE`) is
modelled as a list of titles in insertion order together with a `failing`
flag that models a storage layer whose every operation raises
`sqlite3.Error`.  `INSERT OR IGNORE ... executemany` inserts the rows of a
batch one by one, skipping any title already present, which is the
`insert_if_absent` fold below.
-/

namespace WikiScrape

/-- One `INSERT OR IGNORE INTO articles (title) VALUES (?)` executemany
batch: rows are inserted left to right, a title already present is
silently skipped (the `UNIQUE` constraint on `title`). -/
def insert_if_absent (store : List String) (batch : List String) : List String :=
  batch.foldl (fun s name => if name ∈ s then s else s ++ [name]) store

/-- State of the SQLite database behind `wikipedia_articles.db`: the rows
of the `articles` table, plus a flag modelling a storage layer on which
every `sqlite3` operation raises `sqlite3.Error`. -/
structure DB where
  titles : List String
  failing : Bool
  deriving DecidableEq, Repr

/-- `WikipediaScraper._save_articles_to_db`: an empty batch returns at
once; otherwise the batch is inserted with `INSERT OR IGNORE`.  A
`sqlite3.Error` is caught, logged and swallowed — the function returns
normally and the caller is never told (no exception, no return value). -/
def save_articles_to_db (db : DB) (articles : List String) : DB :=
  if articles = [] then db
  else if db.failing then db
  else { db with titles := insert_if_absent db.titles articles }

/-- `WikipediaScraper.get_total_articles_count`: `SELECT COUNT(*) FROM
articles`; on `sqlite3.Error` the `except` branch returns `0`. -/
def get_total_articles_count (db : DB) : Nat :=
  if db.failing then 0 else db.titles.length

/-- Lexicographic comparison of character lists, the order SQLite's
BINARY collation gives UTF-8 text (bytewise, which agrees with codepoint
order). -/
def charListLtB : List Char → List Char → Bool
  | _, [] => false
  | [], _ :: _ => true
  | a :: as, b :: bs =>
    if a < b then true
    else if b < a then false
    else charListLtB as bs

/-- Boolean string comparison used when computing the table's maximum
title. -/
def strLt (a b : String) : Bool := charListLtB a.data b.data

/-- One comparison step of a running maximum over the table rows. -/
def maxStep (acc : Option String) (t : String) : Option String :=
  match acc with
  | none => some t
  | some m => if strLt m t then some t else some m

/-- `SELECT title FROM articles ORDER BY title DESC LIMIT 1` over the
rows: the maximum title under SQLite's default BINARY collation, which on
UTF-8 text coincides with codepoint-lexicographic string order. -/
def maxTitle (titles : List String) : Option String :=
  titles.foldl maxStep none

/-- `WikipediaScraper.get_last_article_title`: the `ORDER BY title DESC
LIMIT 1` query result, or `None` when the table is empty or a
`sqlite3.Error` is raised (the `except` branch returns `None`). -/
def get_last_article_title (db : DB) : Option String :=
  if db.failing then none else maxTitle db.titles

/-- Committing a run's successive page batches to the store. -/
def commitBatches (bs : List (List String)) (db : DB) : DB :=
  bs.foldl save_articles_to_db db

theorem insert_if_absent_nil (s : List String) : insert_if_absent s [] = s := rfl

theorem insert_if_absent_cons (s : List String) (a : String) (t : List String) :
    insert_if_absent s (a :: t) =
      insert_if_absent (if a ∈ s then s else s ++ [a]) t := rfl

theorem mem_insert_if_absent (b s : List String) (x : String) :
    x ∈ insert_if_absent s b ↔ x ∈ s ∨ x ∈ b := by
  induction b generalizing s with
  | nil => simp [insert_if_absent]
  | cons a t ih =>
    rw [insert_if_absent_cons, ih]
    by_cases hmem : a ∈ s
    · simp only [if_pos hmem, List.mem_cons]
      constructor
      · rintro (h | h)
        · exact Or.inl h
        · exact Or.inr (Or.inr h)
      · rintro (h | h | h)
        · exact Or.inl h
        · exact Or.inl (h ▸ hmem)
        · exact Or.inr h
    · simp only [if_neg hmem, List.mem_append, List.mem_singleton, List.mem_cons]
      tauto

theorem insert_if_absent_nodup (b s : List String) (hs : s.Nodup) :
    (insert_if_absent s b).Nodup := by
  induction b generalizing s with
  | nil => exact hs
  | cons a t ih =>
    rw [insert_if_absent_cons]
    by_cases hmem : a ∈ s
    · simpa [hmem] using ih s hs
    · have hnd : (s ++ [a]).Nodup := by
        simp [List.nodup_append, hs, hmem]
      simpa [hmem] using ih (s ++ [a]) hnd

theorem toFinset_insert_if_absent (b s : List String) :
    (insert_if_absent s b).toFinset = s.toFinset ∪ b.toFinset := by
  ext x
  simp [List.mem_toFinset, mem_insert_if_absent]

theorem save_articles_to_db_healthy (titles : List String) (articles : List String) :
    save_articles_to_db ⟨titles, false⟩ articles =
      ⟨insert_if_absent titles articles, false⟩ := by
  cases articles with
  | nil => simp [save_articles_to_db, insert_if_absent_nil]
  | cons a t => simp [save_articles_to_db]

theorem commitBatches_healthy (bs : List (List String)) (titles : List String) :
    commitBatches bs ⟨titles, false⟩ =
      ⟨bs.foldl insert_if_absent titles, false⟩ := by
  induction bs generalizing titles with
  | nil => rfl
  | cons b t ih =>
    simp only [commitBatches, List.foldl_cons] at *
    rw [save_articles_to_db_healthy, ih]

theorem foldl_insert_if_absent_nodup (bs : List (List String)) (s : List String)
    (hs : s.Nodup) : (bs.foldl insert_if_absent s).Nodup := by
  induction bs generalizing s with
  | nil => exact hs
  | cons b t ih => exact ih _ (insert_if_absent_nodup b s hs)

theorem foldl_insert_if_absent_toFinset (bs : List (List String)) (s : List String) :
    (bs.foldl insert_if_absent s).toFinset = s.toFinset ∪ (bs.flatten).toFinset := by
  induction bs generalizing s with
  | nil => simp
  | cons b t ih =>
    simp only [List.foldl_cons, List.flatten_cons]
    rw [ih, toFinset_insert_if_absent]
    ext x
    simp [or_assoc]

/-- C1: feeding any sequence of batches to the Catalog Store through
`insert_if_absent` (the `INSERT OR IGNORE` commit of
`_save_articles_to_db`), in any order and with any repetitions, leaves a
table whose rows are pairwise distinct (each name stored exactly once) and
whose `count()` equals the number of distinct names across all batches. -/
theorem c1_dedup_idempotence (bs : List (List String)) :
    (commitBatches bs ⟨[], false⟩).titles.Nodup ∧
    get_total_articles_count (commitBatches bs ⟨[], false⟩) =
      (bs.flatten).toFinset.card := by
  rw [commitBatches_healthy]
  refine ⟨foldl_insert_if_absent_nodup bs [] (by simp), ?_⟩
  have hnd : (bs.foldl insert_if_absent []).Nodup :=
    foldl_insert_if_absent_nodup bs [] (by simp)
  have hfs : (bs.foldl insert_if_absent []).toFinset = (bs.flatten).toFinset := by
    rw [foldl_insert_if_absent_toFinset]; simp
  calc get_total_articles_count ⟨bs.foldl insert_if_absent [], false⟩
      = (bs.foldl insert_if_absent []).length := by
        simp [get_total_articles_count]
    _ = (bs.foldl insert_if_absent []).toFinset.card :=
        (List.toFinset_card_of_nodup hnd).symm
    _ = (bs.flatten).toFinset.card := by rw [hfs]

/-! ## Page model

A fetched page (`BeautifulSoup` object) is modelled by the three link
collections the scraper queries: the links inside the
`div.mw-allpages-body` listing container (absent when the div is missing),
the links of the whole document (`soup.find_all` with an `a` argument), and the
links inside the `div.mw-allpages-nav` navigation region (absent when the
div is missing).  A link carries its `title` attribute, its display text
(standing in for both `tag.string` and `tag.get_text()`), and its `href`
attribute. -/

/-- Python's `str.startswith`, character by character. -/
def strStartsWith (s pre : String) : Bool :=
  pre.data.isPrefixOf s.data

/-- An anchor tag as the scraper queries it. -/
structure Link where
  title : Option String
  text : String
  href : Option String
  deriving DecidableEq

/-- The link collections of one fetched page. -/
structure Soup where
  bodyLinks : Option (List Link)
  allLinks : List Link
  navLinks : Option (List Link)
  deriving DecidableEq

/-- `WikipediaScraper._extract_articles_from_page`: links of the
`mw-allpages-body` container contribute their `title` attribute when the
`title` and `href` attributes are both truthy (non-`None`, non-empty) and
the `href` starts with `/wiki/`; a missing container yields no articles. -/
def extract_articles_from_page (soup : Soup) : List String :=
  match soup.bodyLinks with
  | none => []
  | some links =>
    links.filterMap fun l =>
      match l.title, l.href with
      | some t, some h =>
        if t ≠ "" && strStartsWith h "/wiki/" then some t else none
      | _, _ => none

/-- Contiguous-substring test on character lists (Python's `in` on
strings). -/
def containsSub (needle : List Char) : List Char → Bool
  | [] => needle.isEmpty
  | c :: t => needle.isPrefixOf (c :: t) || containsSub needle t

/-- Python's `str.lower`, character by character (`Char.toLower`
lowercases the ASCII range, all that the `next` heuristic inspects). -/
def strToLower (s : String) : String :=
  ⟨s.data.map Char.toLower⟩

/-- Python's case-insensitive test of the next-page heuristic:
whether the string `next` occurs in the lowercased link text. -/
def hasNextText (s : String) : Bool :=
  containsSub "next".data (strToLower s).data

/-- Whether `Special:AllPages` occurs in an `href` (Python's `in`). -/
def hasAllPagesHref (h : String) : Bool :=
  containsSub "Special:AllPages".data h.data

/-- The scraper's base URL, `https://en.wikipedia.org`. -/
def base_url : String := "https://en.wikipedia.org"

/-- `urllib.parse.urljoin`, restricted to the cases arising here (the base
is scheme and host with no path): an absolute `href` is returned as is, a
root-relative path is appended to the base, any other relative path is
resolved against the root. -/
def urljoin (base href : String) : String :=
  if strStartsWith href "http://" || strStartsWith href "https://" then href
  else if strStartsWith href "/" then base ++ href
  else base ++ "/" ++ href

/-- One candidate of the first branch of
`WikipediaScraper._find_next_page_url`: a link found by
`soup.find_all` filtered on text containing `next` case-insensitively is
used when its `href` exists and contains `Special:AllPages`. -/
def nextCandidateText (l : Link) : Option String :=
  if hasNextText l.text then
    match l.href with
    | some h => if hasAllPagesHref h then some (urljoin base_url h) else none
    | none => none
  else none

/-- One candidate of the fallback branch of
`WikipediaScraper._find_next_page_url`: a link of the `mw-allpages-nav`
region whose text contains `next` case-insensitively and whose `href`
exists. -/
def nextCandidateNav (l : Link) : Option String :=
  if hasNextText l.text then
    match l.href with
    | some h => some (urljoin base_url h)
    | none => none
  else none

/-- `WikipediaScraper._find_next_page_url`: first the whole-document scan
for textually `next`-labelled links with a `Special:AllPages` `href`; when
that yields nothing, the `mw-allpages-nav` region scan; when both fail,
`None`. -/
def find_next_page_url (soup : Soup) : Option String :=
  match soup.allLinks.findSome? nextCandidateText with
  | some u => some u
  | none =>
    match soup.navLinks with
    | some links => links.findSome? nextCandidateNav
    | none => none

/-! ## URL construction -/

/-- Uppercase hexadecimal digit of a value below 16 (Python's `%02X`
formatting inside `urllib.parse.quote`). -/
def hexDigit (n : Nat) : Char :=
  match n with
  | 0 => '0' | 1 => '1' | 2 => '2' | 3 => '3'
  | 4 => '4' | 5 => '5' | 6 => '6' | 7 => '7'
  | 8 => '8' | 9 => '9' | 10 => 'A' | 11 => 'B'
  | 12 => 'C' | 13 => 'D' | 14 => 'E' | 15 => 'F'
  | _ => '0'

/-- The UTF-8 bytes of one character (as naturals below 256). -/
def utf8Bytes (c : Char) : List Nat :=
  let n := c.toNat
  if n < 128 then [n]
  else if n < 2048 then [192 + n / 64, 128 + n % 64]
  else if n < 65536 then [224 + n / 4096, 128 + n / 64 % 64, 128 + n % 64]
  else [240 + n / 262144, 128 + n / 4096 % 64, 128 + n / 64 % 64, 128 + n % 64]

/-- Percent-escape of one byte: `%` followed by two uppercase hex
digits. -/
def percentEncodeByte (b : Nat) : List Char :=
  ['%', hexDigit (b / 16), hexDigit (b % 16)]

/-- Characters `urllib.parse.quote` never escapes: ASCII letters and
digits and `_.-~`. -/
def isQuoteSafe (c : Char) : Bool :=
  c.isAlphanum || c = '_' || c = '.' || c = '-' || c = '~'

/-- Per-character action of `urllib.parse.quote_plus` with default
arguments: safe characters pass through, a space becomes `+`, anything
else is percent-escaped byte by byte. -/
def quotePlusChar (c : Char) : List Char :=
  if isQuoteSafe c then [c]
  else if c = ' ' then ['+']
  else (utf8Bytes c).flatMap percentEncodeByte

/-- `urllib.parse.quote_plus` with default arguments, as used by
`WikipediaScraper.create_resume_url`. -/
def quote_plus (s : String) : String :=
  ⟨s.data.flatMap quotePlusChar⟩

/-- The fixed `Special:AllPages` listing endpoint up to its `from=`
query parameter. -/
def listUrlPrefix : String :=
  "https://en.wikipedia.org/w/index.php?title=Special:AllPages&from="

/-- `WikipediaScraper.create_resume_url`: the `from` parameter is the
`quote_plus`-encoded last title. -/
def create_resume_url (last_title : String) : String :=
  listUrlPrefix ++ quote_plus last_title

/-- The starting URL `main` builds from `--start-from`: the raw argument
is interpolated into the f-string with no encoding. -/
def explicitStartUrl (startFrom : String) : String :=
  listUrlPrefix ++ startFrom

/-- Default starting URL of `scrape_all_articles` (from `!`). -/
def defaultStartUrl : String :=
  "https://en.wikipedia.org/w/index.php?title=Special:AllPages&from=%21"

/-! ## Resume planning (`main`, lines 284-316) -/

/-- What `main` decides before scraping: either run with a starting URL
(`none` meaning the default first page) or return early ("Scraping
cancelled by user"). -/
inductive PlanOutcome where
  | run (startUrl : Option String)
  | cancelled
  deriving DecidableEq

/-- The `elif`/`else` branches of `main`'s starting-URL decision, reached
when `args.start_from` is falsy: `--resume` with a non-empty table resumes
from the last stored title (or from the beginning when that title cannot
be read); else a non-empty table prompts interactively (`y` resumes, `n`
starts fresh, anything else cancels); else the scrape starts from the
default first page. -/
def planStartNoExplicit (resume : Bool) (db : DB) (promptResponse : String)
    (existingCount : Nat) : PlanOutcome :=
  if resume && existingCount > 0 then
    match get_last_article_title db with
    | some t => .run (some (create_resume_url t))
    | none => .run none
  else if existingCount > 0 then
    let r := strToLower promptResponse
    if r = "y" then
      match get_last_article_title db with
      | some t => .run (some (create_resume_url t))
      | none => .run none
    else if r = "n" then .run none
    else .cancelled
  else .run none

/-- The starting-URL decision of `main`: `--start-from` wins when truthy
(Python: an empty string is falsy and is ignored); otherwise the
resume/prompt logic of `planStartNoExplicit` applies to the
`get_total_articles_count` of the store. -/
def planStart (startFrom : Option String) (resume : Bool) (db : DB)
    (promptResponse : String) : PlanOutcome :=
  let existingCount := get_total_articles_count db
  match startFrom with
  | some s =>
    if s = "" then planStartNoExplicit resume db promptResponse existingCount
    else .run (some (explicitStartUrl s))
  | none => planStartNoExplicit resume db promptResponse existingCount

/-! ## Crawl driver (`WikipediaScraper.scrape_all_articles`)

The `while current_url` loop.  The remote service is an abstract
`String → Option Soup` (`None` models a failed `_get_page`).  A fuel
parameter makes the recursion structural; `none` as overall result means
only that the fuel ran out, never a behaviour of the code.  The Python
`max_pages` may be `None` or an `int`; both `None` and `0` are falsy in
the guard `if max_pages and pages_scraped >= max_pages`, so the model
takes a `Nat` whose zero covers both.  An external interrupt (Ctrl+C) is
cooperative: `sigint = some k` models a `KeyboardInterrupt` raised inside
the fetch/sleep of the page after `k` completed pages, so that page
contributes nothing and the exception leaves the loop. -/

/-- Why the loop ended, one constructor per `break`/propagation site. -/
inductive StopReason where
  /-- "Reached maximum page limit". -/
  | maxPagesReached
  /-- "Failed to fetch page, stopping scraping". -/
  | fetchFailed
  /-- "No articles found on this page, stopping" (logged as a warning,
  distinct from the natural end). -/
  | noArticles
  /-- "No more pages found, scraping completed". -/
  | noMorePages
  /-- A `KeyboardInterrupt` propagated out of the loop. -/
  | interrupted
  deriving DecidableEq

/-- The loop's final state: its two counters, the database, and why it
stopped. -/
structure RunResult where
  pagesScraped : Nat
  totalArticles : Nat
  db : DB
  reason : StopReason
  deriving DecidableEq

/-- The body of `scrape_all_articles`'s `while` loop.  Checks in source
order: the page budget at the top, then the fetch (where an interrupt
would strike), extraction, the empty-page stop, the commit, and the
next-page lookup. -/
def scrapeLoop (remote : String → Option Soup) (maxPages : Nat) (sigint : Option Nat) :
    Nat → String → Nat → Nat → DB → Option RunResult
  | 0, _, _, _, _ => none
  | fuel + 1, url, pagesScraped, totalArticles, db =>
    if maxPages ≠ 0 ∧ pagesScraped ≥ maxPages then
      some ⟨pagesScraped, totalArticles, db, .maxPagesReached⟩
    else if sigint = some pagesScraped then
      some ⟨pagesScraped, totalArticles, db, .interrupted⟩
    else
      match remote url with
      | none => some ⟨pagesScraped, totalArticles, db, .fetchFailed⟩
      | some soup =>
        let articles := extract_articles_from_page soup
        if articles = [] then
          some ⟨pagesScraped, totalArticles, db, .noArticles⟩
        else
          match find_next_page_url soup with
          | none =>
            some ⟨pagesScraped + 1, totalArticles + articles.length,
              save_articles_to_db db articles, .noMorePages⟩
          | some nextUrl =>
            scrapeLoop remote maxPages sigint fuel nextUrl (pagesScraped + 1)
              (totalArticles + articles.length) (save_articles_to_db db articles)

/-- `WikipediaScraper.scrape_all_articles`: a missing `start_url` defaults
to the `Special:AllPages` first page, then the loop runs from zero
counters. -/
def scrape_all_articles (remote : String → Option Soup) (startUrl : Option String)
    (maxPages : Nat) (sigint : Option Nat) (fuel : Nat) (db : DB) : Option RunResult :=
  scrapeLoop remote maxPages sigint fuel (startUrl.getD defaultStartUrl) 0 0 db

/-! ## `main` around the scrape -/

/-- The observable outcome of one `main` invocation: whether the
"Scraping Summary" block (total article count and database file name) was
printed, the process exit code, and the final database state. -/
structure MainResult where
  printedSummary : Bool
  exitCode : Nat
  db : DB
  deriving DecidableEq

/-- `main`, lines 280-333: plan the start, scrape, then print the summary.
The summary `print` calls sit inside the `try` block, so a
`KeyboardInterrupt` that ends the scrape jumps to the `except
KeyboardInterrupt` handler, which only logs; the summary is skipped and
`main` returns normally (exit code 0).  An early interactive cancellation
also returns before the scrape and the summary.  (`none` only propagates
the fuel artifact of the loop model.) -/
def mainRun (remote : String → Option Soup) (startFrom : Option String)
    (resume : Bool) (prompt : String) (maxPages : Nat) (sigint : Option Nat)
    (fuel : Nat) (db : DB) : Option MainResult :=
  match planStart startFrom resume db prompt with
  | .cancelled => some ⟨false, 0, db⟩
  | .run startUrl =>
    match scrape_all_articles remote startUrl maxPages sigint fuel db with
    | none => none
    | some r =>
      match r.reason with
      | .interrupted => some ⟨false, 0, r.db⟩
      | _ => some ⟨true, 0, r.db⟩

/-! ## Resume planning: C4, C5 -/

theorem charListLtB_iff (as bs : List Char) : charListLtB as bs = true ↔ as < bs := by
  induction as generalizing bs with
  | nil =>
    cases bs with
    | nil =>
      constructor
      · intro h
        simp [charListLtB] at h
      · intro h
        cases h
    | cons b bs =>
      constructor
      · intro _
        exact List.Lex.nil
      · intro _
        rfl
  | cons a as ih =>
    cases bs with
    | nil =>
      constructor
      · intro h
        simp [charListLtB] at h
      · intro h
        cases h
    | cons b bs =>
      by_cases hab : a < b
      · simp only [charListLtB, if_pos hab]
        constructor
        · intro _
          exact List.Lex.rel hab
        · intro _
          trivial
      · by_cases hba : b < a
        · simp only [charListLtB, if_neg hab, if_pos hba]
          constructor
          · intro h
            simp at h
          · intro h
            cases h with
            | rel h1 => exact absurd h1 hab
            | cons h3 => exact absurd hba (lt_irrefl a)
        · have heq : a = b := le_antisymm (le_of_not_lt hba) (le_of_not_lt hab)
          subst heq
          simp only [charListLtB, if_neg hab, if_neg hba]
          rw [ih bs]
          constructor
          · intro h
            exact List.Lex.cons h
          · intro h
            cases h with
            | rel h1 => exact absurd h1 hab
            | cons h3 => exact h3

theorem strLt_iff (a b : String) : strLt a b = true ↔ a < b := by
  rw [String.lt_iff_toList_lt]
  exact charListLtB_iff a.data b.data

theorem maxStep_some (m t : String) :
    maxStep (some m) t = if strLt m t then some t else some m := rfl

theorem maxTitle_go (ts : List String) (m0 : String) :
    ∃ m, ts.foldl maxStep (some m0) = some m ∧ (m = m0 ∨ m ∈ ts) ∧
      m0 ≤ m ∧ ∀ x ∈ ts, x ≤ m := by
  induction ts generalizing m0 with
  | nil => exact ⟨m0, rfl, Or.inl rfl, le_refl m0, by simp⟩
  | cons t ts ih =>
    simp only [List.foldl_cons, maxStep_some]
    by_cases hlt : strLt m0 t = true
    · rw [if_pos hlt]
      obtain ⟨m, hm, hmem, hle, hall⟩ := ih t
      refine ⟨m, hm, ?_, le_trans (le_of_lt ((strLt_iff m0 t).mp hlt)) hle, ?_⟩
      · rcases hmem with h | h
        · exact Or.inr (by simp [h])
        · exact Or.inr (by simp [h])
      · intro x hx
        rcases List.mem_cons.mp hx with h | h
        · exact h ▸ hle
        · exact hall x h
    · rw [if_neg hlt]
      obtain ⟨m, hm, hmem, hle, hall⟩ := ih m0
      refine ⟨m, hm, ?_, hle, ?_⟩
      · rcases hmem with h | h
        · exact Or.inl h
        · exact Or.inr (by simp [h])
      · intro x hx
        rcases List.mem_cons.mp hx with h | h
        · exact h ▸ le_trans (le_of_not_lt (fun hc => hlt ((strLt_iff m0 t).mpr hc))) hle
        · exact hall x h

theorem maxTitle_spec (titles : List String) (h : titles ≠ []) :
    ∃ m, maxTitle titles = some m ∧ m ∈ titles ∧ ∀ x ∈ titles, x ≤ m := by
  cases titles with
  | nil => exact absurd rfl h
  | cons t ts =>
    obtain ⟨m, hm, hmem, hle, hall⟩ := maxTitle_go ts t
    refine ⟨m, ?_, ?_, ?_⟩
    · simpa [maxTitle, maxStep] using hm
    · rcases hmem with h1 | h1
      · simp [h1]
      · simp [h1]
    · intro x hx
      rcases List.mem_cons.mp hx with h1 | h1
      · exact h1 ▸ hle
      · exact hall x h1

/-- C4: with no explicit start, auto-resume on, and a healthy non-empty
store, `main` plans a cursor derived via `create_resume_url` from the
lexicographically greatest stored name, which every stored name is at or
below. -/
theorem c4_resume_from_lex_max (titles : List String) (prompt : String)
    (h : titles ≠ []) :
    ∃ m, get_last_article_title ⟨titles, false⟩ = some m ∧ m ∈ titles ∧
      (∀ x ∈ titles, x ≤ m) ∧
      planStart none true ⟨titles, false⟩ prompt =
        .run (some (create_resume_url m)) := by
  obtain ⟨m, hm, hmem, hall⟩ := maxTitle_spec titles h
  have hlast : get_last_article_title ⟨titles, false⟩ = some m := by
    simpa [get_last_article_title] using hm
  refine ⟨m, hlast, hmem, hall, ?_⟩
  have hcount : 0 < get_total_articles_count ⟨titles, false⟩ := by
    simpa [get_total_articles_count] using List.length_pos.mpr h
  simp [planStart, planStartNoExplicit, hcount, hlast]

/-- C4 witness: on the store from the spec's example the planned cursor
comes from Cherry. -/
theorem c4_witness :
    planStart none true ⟨["Apple", "Banana", "Cherry"], false⟩ "" =
      .run (some (create_resume_url "Cherry")) := by
  obtain ⟨m, hm, _, _, hplan⟩ :=
    c4_resume_from_lex_max ["Apple", "Banana", "Cherry"] "" (by simp)
  have h2 : get_last_article_title ⟨["Apple", "Banana", "Cherry"], false⟩ =
      some "Cherry" := by decide
  have hmc : m = "Cherry" := Option.some.inj (hm.symm.trans h2)
  rw [hmc] at hplan
  exact hplan

/-- C5 fails as stated: with the empty string as the explicit start name
(a legal `--start-from` value, falsy in Python), the planned cursor comes
from the store's last title, not from the given name. -/
theorem c5_counterexample :
    planStart (some "") true ⟨["Apple"], false⟩ "n" =
      .run (some (create_resume_url "Apple")) ∧
    create_resume_url "Apple" ≠ explicitStartUrl "" := by
  constructor
  · rfl
  · decide

/-- C5 amended: for every non-empty explicit start name, the planned
cursor is derived directly from that name, whatever auto-resume and the
store contents are. -/
theorem c5_explicit_override (name : String) (hname : name ≠ "")
    (resume : Bool) (db : DB) (prompt : String) :
    planStart (some name) resume db prompt = .run (some (explicitStartUrl name)) := by
  simp [planStart, hname]

/-- C5 witness: an explicit Zebra start wins over auto-resume and a
non-empty store. -/
theorem c5_witness :
    planStart (some "Zebra") true ⟨["Apple", "Banana", "Cherry"], false⟩ "" =
      .run (some (explicitStartUrl "Zebra")) :=
  c5_explicit_override "Zebra" (by decide) true ⟨["Apple", "Banana", "Cherry"], false⟩ ""

/-! ## URL construction: C7 -/

theorem hexDigit_isAlphanum (n : Nat) : (hexDigit n).isAlphanum = true := by
  unfold hexDigit
  split <;> decide

theorem quotePlusChar_mem (a c : Char) (h : c ∈ quotePlusChar a) :
    isQuoteSafe c = true ∨ c = '+' ∨ c = '%' := by
  unfold quotePlusChar at h
  by_cases hsafe : isQuoteSafe a
  · rw [if_pos hsafe] at h
    simp only [List.mem_singleton] at h
    exact Or.inl (h ▸ hsafe)
  · rw [if_neg hsafe] at h
    by_cases hsp : a = ' '
    · rw [if_pos hsp] at h
      simp only [List.mem_singleton] at h
      exact Or.inr (Or.inl h)
    · rw [if_neg hsp] at h
      rcases List.mem_flatMap.mp h with ⟨b, _, hcb⟩
      unfold percentEncodeByte at hcb
      rcases List.mem_cons.mp hcb with h1 | h1
      · exact Or.inr (Or.inr h1)
      rcases List.mem_cons.mp h1 with h2 | h2
      · exact Or.inl (by simp [isQuoteSafe, h2, hexDigit_isAlphanum])
      rcases List.mem_cons.mp h2 with h3 | h3
      · exact Or.inl (by simp [isQuoteSafe, h3, hexDigit_isAlphanum])
      · exact absurd h3 (List.not_mem_nil c)

/-- C7 amended: the resume URL appends the `quote_plus` form-encoding of
the name to the fixed listing endpoint (every character of the encoding is
a safe character, a `+`, or a `%`, and in particular no raw space
survives); the URL built from an explicit `--start-from` name instead
interpolates the name raw, with no encoding. -/
theorem c7_url_encoding (name : String) :
    create_resume_url name = listUrlPrefix ++ quote_plus name ∧
    explicitStartUrl name = listUrlPrefix ++ name ∧
    (∀ c ∈ (quote_plus name).data, isQuoteSafe c = true ∨ c = '+' ∨ c = '%') ∧
    ' ' ∉ (quote_plus name).data := by
  have hchars : ∀ c ∈ (quote_plus name).data,
      isQuoteSafe c = true ∨ c = '+' ∨ c = '%' := by
    intro c hc
    rcases List.mem_flatMap.mp hc with ⟨a, _, hca⟩
    exact quotePlusChar_mem a c hca
  refine ⟨rfl, rfl, hchars, ?_⟩
  intro hsp
  rcases hchars ' ' hsp with h | h | h
  · exact absurd h (by decide)
  · exact absurd h (by decide)
  · exact absurd h (by decide)

/-- C7 witness: a resume name with a space is committed to the URL in
encoded form. -/
theorem c7_witness :
    create_resume_url "Mount Fuji" = listUrlPrefix ++ quote_plus "Mount Fuji" ∧
    ' ' ∉ (quote_plus "Mount Fuji").data :=
  ⟨(c7_url_encoding "Mount Fuji").1, (c7_url_encoding "Mount Fuji").2.2.2⟩

/-- C7 fails as stated: the URL built from the explicit start name
with a space is not the form-encoded one — the name is interpolated raw. -/
theorem c7_counterexample :
    quote_plus "A B" = "A+B" ∧
    explicitStartUrl "A B" = listUrlPrefix ++ "A B" ∧
    explicitStartUrl "A B" ≠ listUrlPrefix ++ quote_plus "A B" := by
  refine ⟨by decide, rfl, by decide⟩

/-! ## Next-page detection: C8 -/

/-- A page whose only link is textually labelled `Next` but whose `href`
does not mention `Special:AllPages`, outside any navigation region. -/
def c8Soup : Soup := ⟨none, [⟨none, "Next page", some "/wiki/Foo"⟩], none⟩

/-- C8 fails as stated: this page carries a link with `next` in its text
and an `href`, yet `_find_next_page_url` returns `None`, because the
whole-document branch also demands `Special:AllPages` inside the `href`
and no navigation region exists. -/
theorem c8_counterexample :
    (c8Soup.allLinks.any fun l => hasNextText l.text && l.href.isSome) = true ∧
    find_next_page_url c8Soup = none :=
  ⟨rfl, rfl⟩

/-- C8 amended: a link anywhere in the document whose text contains
`next` (case-insensitively) and whose `href` contains `Special:AllPages`
is used if present (`nextCandidateText`); otherwise a link with an `href`
inside the `mw-allpages-nav` region whose text contains `next` is used
(`nextCandidateNav`); the result is `none` exactly when neither kind of
candidate exists; the textual whole-document match takes precedence. -/
theorem c8_next_page_detection (soup : Soup) :
    (find_next_page_url soup = none ↔
      (∀ l ∈ soup.allLinks, nextCandidateText l = none) ∧
      (∀ links, soup.navLinks = some links → ∀ l ∈ links, nextCandidateNav l = none)) ∧
    (∀ l ∈ soup.allLinks, nextCandidateText l ≠ none →
      ∃ l2 ∈ soup.allLinks, ∃ u, nextCandidateText l2 = some u ∧
        find_next_page_url soup = some u) ∧
    (∀ u, find_next_page_url soup = some u →
      (∃ l ∈ soup.allLinks, nextCandidateText l = some u) ∨
      ((∀ l ∈ soup.allLinks, nextCandidateText l = none) ∧
        ∃ links, soup.navLinks = some links ∧ ∃ l ∈ links, nextCandidateNav l = some u)) := by
  cases hfs : soup.allLinks.findSome? nextCandidateText with
  | some u0 =>
    have hfind : find_next_page_url soup = some u0 := by
      simp [find_next_page_url, hfs]
    obtain ⟨l0, hl0, hcand⟩ := List.exists_of_findSome?_eq_some hfs
    refine ⟨?_, ?_, ?_⟩
    · constructor
      · intro h
        rw [hfind] at h
        exact absurd h (by simp)
      · rintro ⟨h1, _⟩
        exact absurd (h1 l0 hl0) (by simp [hcand])
    · intro l hl _
      exact ⟨l0, hl0, u0, hcand, hfind⟩
    · intro u hu
      rw [hfind] at hu
      refine Or.inl ⟨l0, hl0, ?_⟩
      rw [hcand]
      exact hu
  | none =>
    have hnone := List.findSome?_eq_none_iff.mp hfs
    cases hnav : soup.navLinks with
    | none =>
      have hfind : find_next_page_url soup = none := by
        simp [find_next_page_url, hfs, hnav]
      refine ⟨?_, ?_, ?_⟩
      · constructor
        · intro _
          refine ⟨hnone, ?_⟩
          intro links h
          exact absurd h (by simp)
        · intro _
          exact hfind
      · intro l hl hne
        exact absurd (hnone l hl) hne
      · intro u hu
        rw [hfind] at hu
        exact absurd hu (by simp)
    | some links =>
      cases hnl : links.findSome? nextCandidateNav with
      | none =>
        have hfind : find_next_page_url soup = none := by
          simp [find_next_page_url, hfs, hnav, hnl]
        have hnone2 := List.findSome?_eq_none_iff.mp hnl
        refine ⟨?_, ?_, ?_⟩
        · constructor
          · intro _
            refine ⟨hnone, ?_⟩
            intro links2 h
            cases h
            exact hnone2
          · intro _
            exact hfind
        · intro l hl hne
          exact absurd (hnone l hl) hne
        · intro u hu
          rw [hfind] at hu
          exact absurd hu (by simp)
      | some u1 =>
        have hfind : find_next_page_url soup = some u1 := by
          simp [find_next_page_url, hfs, hnav, hnl]
        obtain ⟨l1, hl1, hcand1⟩ := List.exists_of_findSome?_eq_some hnl
        refine ⟨?_, ?_, ?_⟩
        · constructor
          · intro h
            rw [hfind] at h
            exact absurd h (by simp)
          · rintro ⟨_, h2⟩
            exact absurd (h2 links rfl l1 hl1) (by simp [hcand1])
        · intro l hl hne
          exact absurd (hnone l hl) hne
        · intro u hu
          rw [hfind] at hu
          refine Or.inr ⟨hnone, links, rfl, l1, hl1, ?_⟩
          rw [hcand1]
          exact hu

/-- A page whose only link is a `Next page` link with a
`Special:AllPages` `href`. -/
def c8GoodSoup : Soup :=
  ⟨none, [⟨none, "Next page", some "/w/index.php?title=Special:AllPages&from=B"⟩], none⟩

/-- C8 witness: on a page with a qualifying textual link, the detected
next URL is that link's, resolved against the base. -/
theorem c8_witness :
    find_next_page_url c8GoodSoup =
      some (urljoin base_url "/w/index.php?title=Special:AllPages&from=B") := by
  obtain ⟨l2, hl2, u, hcand, hfind⟩ :=
    (c8_next_page_detection c8GoodSoup).2.1
      ⟨none, "Next page", some "/w/index.php?title=Special:AllPages&from=B"⟩
      (by simp [c8GoodSoup]) (by decide)
  have hl2e : l2 = ⟨none, "Next page", some "/w/index.php?title=Special:AllPages&from=B"⟩ := by
    simpa [c8GoodSoup] using hl2
  rw [hl2e] at hcand
  have heval : nextCandidateText
      ⟨none, "Next page", some "/w/index.php?title=Special:AllPages&from=B"⟩ =
      some (urljoin base_url "/w/index.php?title=Special:AllPages&from=B") := rfl
  rw [heval] at hcand
  rw [← Option.some.inj hcand] at hfind
  exact hfind

/-! ## Crawl driver: C2, C6, C10 -/

theorem scrapeLoop_budget_stop (remote : String → Option Soup) (maxPages : Nat)
    (sigint : Option Nat) (fuel : Nat) (url : String) (p t : Nat) (db : DB)
    (hb : maxPages ≠ 0 ∧ p ≥ maxPages) :
    scrapeLoop remote maxPages sigint (fuel + 1) url p t db =
      some ⟨p, t, db, .maxPagesReached⟩ := by
  simp [scrapeLoop, hb]

theorem scrapeLoop_step (remote : String → Option Soup) (maxPages : Nat)
    (sigint : Option Nat) (fuel : Nat) (url : String) (p t : Nat) (db : DB)
    (soup : Soup) (u : String)
    (hb : ¬(maxPages ≠ 0 ∧ p ≥ maxPages)) (hs : sigint ≠ some p)
    (hr : remote url = some soup)
    (hne : extract_articles_from_page soup ≠ [])
    (hnx : find_next_page_url soup = some u) :
    scrapeLoop remote maxPages sigint (fuel + 1) url p t db =
      scrapeLoop remote maxPages sigint fuel u (p + 1)
        (t + (extract_articles_from_page soup).length)
        (save_articles_to_db db (extract_articles_from_page soup)) := by
  simp [scrapeLoop, hb, hs, hr, hne, hnx]

/-- C2: whenever an iteration of the crawl loop (with fuel left, budget
not exhausted, and no interrupt) fetches a page that translates to zero
articles while a next cursor is present, the loop stops right there with
the empty-page stop, a reason distinct from the natural end-of-sequence
stop — in particular it never loops on such pages. -/
theorem c2_translation_anomaly (remote : String → Option Soup) (maxPages : Nat)
    (sigint : Option Nat) (fuel : Nat) (url : String) (p t : Nat) (db : DB)
    (soup : Soup)
    (hfuel : fuel ≠ 0)
    (hb : ¬(maxPages ≠ 0 ∧ p ≥ maxPages))
    (hs : sigint ≠ some p)
    (hr : remote url = some soup)
    (hempty : extract_articles_from_page soup = [])
    (_hnx : find_next_page_url soup ≠ none) :
    scrapeLoop remote maxPages sigint fuel url p t db =
      some ⟨p, t, db, .noArticles⟩ ∧
    StopReason.noArticles ≠ StopReason.noMorePages := by
  obtain ⟨f, rfl⟩ : ∃ f, fuel = f + 1 := ⟨fuel - 1, by omega⟩
  exact ⟨by simp [scrapeLoop, hb, hs, hr, hempty], by decide⟩

/-- A page with an empty listing container but a valid next-page link. -/
def anomalySoup : Soup :=
  ⟨some [], [⟨none, "Next page", some "/w/index.php?title=Special:AllPages&from=B"⟩], none⟩

/-- C2 witness: a concrete run that hits an empty page carrying a next
cursor stops at once with the empty-page stop. -/
theorem c2_witness :
    scrapeLoop (fun _ => some anomalySoup) 0 none 5 defaultStartUrl 0 0 ⟨[], false⟩ =
      some ⟨0, 0, ⟨[], false⟩, .noArticles⟩ :=
  (c2_translation_anomaly (fun _ => some anomalySoup) 0 none 5 defaultStartUrl 0 0
    ⟨[], false⟩ anomalySoup (by decide) (by simp) (by simp) rfl rfl (by decide)).1

/-- C6: against a remote on which every page fetch succeeds, yields at
least one article, and advertises a next cursor, a run with `max_pages =
2` stops having scraped exactly 2 pages, and the summary reason is the
page-budget stop. -/
theorem c6_page_budget (remote : String → Option Soup) (fuel : Nat) (url : String)
    (db : DB)
    (hinf : ∀ u2, ∃ soup, remote u2 = some soup ∧
      extract_articles_from_page soup ≠ [] ∧ find_next_page_url soup ≠ none)
    (hfuel : 3 ≤ fuel) :
    ∃ r, scrape_all_articles remote (some url) 2 none fuel db = some r ∧
      r.pagesScraped = 2 ∧ r.reason = .maxPagesReached := by
  obtain ⟨k, rfl⟩ : ∃ k, fuel = k + 3 := ⟨fuel - 3, by omega⟩
  obtain ⟨s0, hr0, hne0, hnx0⟩ := hinf url
  obtain ⟨u1, hu1⟩ := Option.ne_none_iff_exists'.mp hnx0
  obtain ⟨s1, hr1, hne1, hnx1⟩ := hinf u1
  obtain ⟨u2, hu2⟩ := Option.ne_none_iff_exists'.mp hnx1
  have h1 := scrapeLoop_step remote 2 none (k + 2) url 0 0 db s0 u1
    (by omega) (by simp) hr0 hne0 hu1
  have h2 := scrapeLoop_step remote 2 none (k + 1) u1 (0 + 1)
    (0 + (extract_articles_from_page s0).length)
    (save_articles_to_db db (extract_articles_from_page s0)) s1 u2
    (by omega) (by simp) hr1 hne1 hu2
  have h3 := scrapeLoop_budget_stop remote 2 none k u2 (0 + 1 + 1)
    (0 + (extract_articles_from_page s0).length + (extract_articles_from_page s1).length)
    (save_articles_to_db (save_articles_to_db db (extract_articles_from_page s0))
      (extract_articles_from_page s1))
    (by omega)
  refine ⟨⟨0 + 1 + 1,
    0 + (extract_articles_from_page s0).length + (extract_articles_from_page s1).length,
    save_articles_to_db (save_articles_to_db db (extract_articles_from_page s0))
      (extract_articles_from_page s1), .maxPagesReached⟩, ?_, rfl, rfl⟩
  show scrapeLoop remote 2 none (k + 3) url 0 0 db = _
  have e1 : k + 3 = (k + 2) + 1 := rfl
  have e2 : k + 2 = (k + 1) + 1 := rfl
  rw [e1, h1, e2, h2, h3]

/-- A page with one article link and a valid next-page link. -/
def pageSoup : Soup :=
  ⟨some [⟨some "A", "A", some "/wiki/A"⟩],
   [⟨none, "Next page", some "/w/index.php?title=Special:AllPages&from=B"⟩], none⟩

/-- C6 witness: a concrete endless remote with `max_pages = 2` yields a
run of exactly 2 pages ending in the budget stop. -/
theorem c6_witness :
    ((scrape_all_articles (fun _ => some pageSoup) (some defaultStartUrl) 2 none 3
        ⟨[], false⟩).map RunResult.pagesScraped = some 2) ∧
    ((scrape_all_articles (fun _ => some pageSoup) (some defaultStartUrl) 2 none 3
        ⟨[], false⟩).map RunResult.reason = some .maxPagesReached) := by
  obtain ⟨r, hr, hp, hreason⟩ := c6_page_budget (fun _ => some pageSoup) 3 defaultStartUrl
    ⟨[], false⟩ (fun u2 => ⟨pageSoup, rfl, by decide, by decide⟩) (le_refl 3)
  rw [hr]
  simp [hp, hreason]

/-- C10: with `max_pages = 0` the budget guard — Python truthiness of
`if max_pages and pages_scraped >= max_pages` — never fires: no run
result ever carries the page-budget stop reason; crawling only ends by
another stop condition. -/
theorem c10_zero_max_pages_unlimited (remote : String → Option Soup)
    (sigint : Option Nat) (fuel : Nat) (url : String) (p t : Nat) (db : DB)
    (r : RunResult)
    (h : scrapeLoop remote 0 sigint fuel url p t db = some r) :
    r.reason ≠ StopReason.maxPagesReached := by
  induction fuel generalizing url p t db with
  | zero => simp [scrapeLoop] at h
  | succ f ih =>
    simp only [scrapeLoop] at h
    split at h
    · rename_i hcond
      exact absurd hcond.1 (by simp)
    split at h
    · cases h
      simp
    split at h
    · cases h
      simp
    · split at h
      · cases h
        simp
      · split at h
        · cases h
          simp
        · exact ih _ _ _ _ h

/-- A page with one article link and no next-page link at all. -/
def endSoup : Soup := ⟨some [⟨some "A", "A", some "/wiki/A"⟩], [], none⟩

/-- C10 witness: a concrete `max_pages = 0` run ends with the natural
end-of-sequence stop, not the budget stop. -/
theorem c10_witness :
    scrapeLoop (fun _ => some endSoup) 0 none 2 defaultStartUrl 0 0 ⟨[], false⟩ =
      some ⟨1, 1, ⟨["A"], false⟩, .noMorePages⟩ ∧
    StopReason.noMorePages ≠ StopReason.maxPagesReached := by
  have h : scrapeLoop (fun _ => some endSoup) 0 none 2 defaultStartUrl 0 0 ⟨[], false⟩ =
      some ⟨1, 1, ⟨["A"], false⟩, .noMorePages⟩ := rfl
  exact ⟨h, c10_zero_max_pages_unlimited (fun _ => some endSoup) none 2 defaultStartUrl
    0 0 ⟨[], false⟩ ⟨1, 1, ⟨["A"], false⟩, .noMorePages⟩ h⟩

/-! ## Persistence failures: C3 -/

/-- A database whose storage layer raises on every operation, holding two
committed rows. -/
def brokenDb : DB := ⟨["Apple", "Banana"], true⟩

/-- C3 fails as stated: on a failing store holding 2 rows, the count
query returns the ordinary value 0 — the same value a healthy empty store
returns — instead of a distinct persistence-failure error, and a failing
save returns normally with no error signal. -/
theorem c3_counterexample :
    get_total_articles_count brokenDb = 0 ∧
    get_total_articles_count ⟨[], false⟩ = 0 ∧
    brokenDb.titles.length = 2 ∧
    save_articles_to_db brokenDb ["Cherry"] = brokenDb :=
  ⟨rfl, rfl, rfl, rfl⟩

/-- C3 amended: storage-layer errors are swallowed, not reported: a
failing save logs and returns normally leaving the store unchanged, a
failing count query returns 0 and a failing last-title query returns
`None` (both indistinguishable from an empty store), and a failing store
does not stop the crawl — the loop runs to its natural end. -/
theorem c3_errors_swallowed (db : DB) (articles : List String)
    (h : db.failing = true) :
    save_articles_to_db db articles = db ∧
    get_total_articles_count db = 0 ∧
    get_last_article_title db = none ∧
    ∀ url, scrapeLoop (fun _ => some endSoup) 0 none 2 url 0 0 db =
      some ⟨1, 1, db, .noMorePages⟩ := by
  have hsave : ∀ arts, save_articles_to_db db arts = db := by
    intro arts
    by_cases ha : arts = [] <;> simp [save_articles_to_db, ha, h]
  refine ⟨hsave articles, by simp [get_total_articles_count, h],
    by simp [get_last_article_title, h], ?_⟩
  intro url
  have hext : extract_articles_from_page endSoup = ["A"] := rfl
  have hnxt : find_next_page_url endSoup = none := rfl
  simp [scrapeLoop, hext, hnxt, hsave]

/-- C3 witness: the swallowing behaviour on the concrete failing store. -/
theorem c3_witness :
    save_articles_to_db brokenDb ["Cherry"] = brokenDb ∧
    get_total_articles_count brokenDb = 0 ∧
    get_last_article_title brokenDb = none ∧
    scrapeLoop (fun _ => some endSoup) 0 none 2 defaultStartUrl 0 0 brokenDb =
      some ⟨1, 1, brokenDb, .noMorePages⟩ := by
  obtain ⟨h1, h2, h3, h4⟩ := c3_errors_swallowed brokenDb ["Cherry"] rfl
  exact ⟨h1, h2, h3, h4 defaultStartUrl⟩

/-! ## Interrupt handling: C9 -/

/-- Relabelling of a budget stop as an interrupt stop: the two runs agree
on everything else. -/
def reasonRelabel (r : RunResult) : RunResult :=
  if r.reason = .maxPagesReached then ⟨r.pagesScraped, r.totalArticles, r.db, .interrupted⟩
  else r

theorem scrapeLoop_sigint_eq_budget (remote : String → Option Soup) (k : Nat)
    (hk : 1 ≤ k) :
    ∀ fuel url p t db, p ≤ k →
      scrapeLoop remote 0 (some k) fuel url p t db =
        (scrapeLoop remote k none fuel url p t db).map reasonRelabel := by
  intro fuel
  induction fuel with
  | zero =>
    intro url p t db _
    simp [scrapeLoop]
  | succ f ih =>
    intro url p t db hp
    by_cases hpk : p = k
    · subst hpk
      have hL : scrapeLoop remote 0 (some p) (f + 1) url p t db =
          some ⟨p, t, db, .interrupted⟩ := by
        simp [scrapeLoop]
      have hR : scrapeLoop remote p none (f + 1) url p t db =
          some ⟨p, t, db, .maxPagesReached⟩ :=
        scrapeLoop_budget_stop remote p none f url p t db ⟨by omega, le_refl p⟩
      rw [hL, hR]
      simp [reasonRelabel]
    · have hplt : p < k := lt_of_le_of_ne hp hpk
      simp only [scrapeLoop]
      have c1 : ¬(0 ≠ 0 ∧ p ≥ 0) := by simp
      have c2 : (some k : Option Nat) ≠ some p := by
        intro hcon
        exact hpk (Option.some.inj hcon).symm
      have c3 : ¬(k ≠ 0 ∧ p ≥ k) := by omega
      have c4 : (none : Option Nat) ≠ some p := by simp
      rw [if_neg c1, if_neg c2, if_neg c3, if_neg c4]
      cases hr : remote url with
      | none => simp [reasonRelabel]
      | some soup =>
        by_cases he : extract_articles_from_page soup = []
        · simp [he, reasonRelabel]
        · cases hnx : find_next_page_url soup with
          | none => simp [he, hnx, reasonRelabel]
          | some u =>
            simp only [he, hnx]
            exact ih u (p + 1) (t + (extract_articles_from_page soup).length)
              (save_articles_to_db db (extract_articles_from_page soup)) (by omega)

/-- C9 corrected/amended: a Ctrl+C arriving after `k` completed pages
stops the run gracefully — the run behaves exactly like a run
budget-limited to `k` pages except for the stop reason, so everything
already committed is preserved — and `main` exits with code 0; but the
summary is NOT printed, because the summary `print` sits inside the `try`
block that the `KeyboardInterrupt` jumps out of. -/
theorem c9_interrupt_graceful (remote : String → Option Soup) (k : Nat) (hk : 1 ≤ k)
    (fuel : Nat) (url : String) (p t : Nat) (db : DB) (hp : p ≤ k) :
    scrapeLoop remote 0 (some k) fuel url p t db =
      (scrapeLoop remote k none fuel url p t db).map reasonRelabel ∧
    (∀ (startFrom : Option String) (resume : Bool) (prompt : String)
        (su : Option String) (r : RunResult),
      planStart startFrom resume db prompt = .run su →
      scrape_all_articles remote su 0 (some k) fuel db = some r →
      r.reason = .interrupted →
      mainRun remote startFrom resume prompt 0 (some k) fuel db =
        some ⟨false, 0, r.db⟩) := by
  refine ⟨scrapeLoop_sigint_eq_budget remote k hk fuel url p t db hp, ?_⟩
  intro startFrom resume prompt su r hplan hscrape hreason
  simp [mainRun, hplan, hscrape, hreason]

/-- C9 witness: interrupting a concrete endless run after 1 page leaves
exactly the state of a 1-page budget-limited run. -/
theorem c9_witness :
    scrapeLoop (fun _ => some pageSoup) 0 (some 1) 5 defaultStartUrl 0 0 ⟨[], false⟩ =
      (scrapeLoop (fun _ => some pageSoup) 1 none 5 defaultStartUrl 0 0
        ⟨[], false⟩).map reasonRelabel :=
  (c9_interrupt_graceful (fun _ => some pageSoup) 1 (le_refl 1) 5 defaultStartUrl 0 0
    ⟨[], false⟩ (by omega)).1

/-- C9 fails as stated: a concrete interrupted run exits with code 0 but
the summary is not printed. -/
theorem c9_counterexample :
    (mainRun (fun _ => some pageSoup) none false "n" 0 (some 1) 5 ⟨[], false⟩).map
      MainResult.printedSummary = some false ∧
    (mainRun (fun _ => some pageSoup) none false "n" 0 (some 1) 5 ⟨[], false⟩).map
      MainResult.exitCode = some 0 :=
  ⟨rfl, rfl⟩

end WikiScrape
